import Mathlib

/-!
Verification of the EcommerceDashboard client against its specification.

The development shallowly embeds the TypeScript source:
* `src/contexts/AuthContext.tsx` — JWT expiry check, auth provider state,
  login/logout, token-expiry checks;
* `src/hooks/useApi.ts` — the authenticated-fetch wrappers;
* the Dashboard page (unnamed source file) — client-side order analytics;
* `src/pages/Categories.tsx`, `Payments.tsx`, `MediaTypes.tsx` — mutation
  handlers and the multi-method category create;
* `src/App.tsx` — the route table;
* the Orders page (unnamed source file) — `fetchOrders`.

JSON values whose precise encoding is irrelevant to the claims are
represented by explicit structures holding the fields the source reads;
JS falsiness of strings (`undefined`/`""`) and numbers (`undefined`/`0`)
is modelled explicitly wherever the source relies on `||` or `&&`.
A JWT is represented by its decode result: either the decode throws
(`malformed`) or it yields a payload with an optional numeric `exp` claim.
-/

/-! ## JS string/number truthiness helpers -/

/-- Truthiness of an optional JS string: `undefined` and `""` are falsy. -/
def strTruthy : Option String → Bool
  | none => false
  | some s => !(s = "")

/-- JS `a || b` on optional strings. -/
def jsOrStr (a b : Option String) : Option String :=
  if strTruthy a then a else b

/-- JS `a || d` on an optional string with a string literal default. -/
def strVal (a : Option String) (d : String) : String :=
  match a with
  | some s => if s = "" then d else s
  | none => d

/-! ## JWT model (AuthContext.tsx, `isTokenExpired`, lines 33–54)

A token string is modelled by the outcome of
`JSON.parse(atob(token.split('.')[1]))`: either the decode throws
(`malformed`) or it produces a payload whose `exp` claim is an optional
natural number of seconds. -/

structure JwtPayload where
  exp : Option Nat
  deriving DecidableEq, Repr

inductive JwtToken where
  | malformed : JwtToken
  | wellFormed (payload : JwtPayload) : JwtToken
  deriving DecidableEq, Repr

/-- `isTokenExpired` from AuthContext.tsx.  The source returns
`payload.exp && payload.exp < currentTime`, a JS truthy/falsy value:
a missing `exp` yields `undefined` (falsy) and `exp = 0` yields `0`
(falsy); we model the truthiness of the returned value.  A decode
failure is caught and returns `true`. -/
def isTokenExpired (token : JwtToken) (now : Nat) : Bool :=
  match token with
  | .malformed => true
  | .wellFormed p =>
    match p.exp with
    | none => false
    | some e => if e = 0 then false else decide (e < now)

/-! ## Auth provider state (AuthContext.tsx) -/

/-- The session object stored in React state and under the
localStorage key `user`. -/
structure StoredUser where
  email : String
  token : Option JwtToken
  id : Option String
  firstName : Option String
  lastName : Option String
  profilePhoto : Option String
  deriving DecidableEq, Repr

/-- Observable client auth state: the React `user` state, the content of
the localStorage `user` key, and the last assignment to
`window.location.href`. -/
structure AuthState where
  user : Option StoredUser
  storage : Option StoredUser
  location : Option String
  deriving DecidableEq, Repr

def emptyAuthState : AuthState := ⟨none, none, none⟩

/-- `logout` (AuthContext.tsx lines 91–98): clear the user state, remove
the localStorage key, and redirect the browser to `/login`. -/
def logout (st : AuthState) : AuthState :=
  { st with user := none, storage := none, location := some "/login" }

/-- `isAuthenticated` is `!!user` (AuthContext.tsx line 282). -/
def isAuthenticated (st : AuthState) : Bool :=
  st.user.isSome

/-- `checkTokenExpiration` (AuthContext.tsx lines 100–105):
`if (user?.token && isTokenExpired(user.token)) logout()`. -/
def checkTokenExpiration (st : AuthState) (now : Nat) : AuthState :=
  match st.user with
  | none => st
  | some u =>
    match u.token with
    | none => st
    | some t => if isTokenExpired t now then logout st else st

/-- `isTokenExpired` exposed on the context (AuthContext.tsx lines
107–109): `user?.token ? isTokenExpired(user.token) : true`. -/
def isUserTokenExpired (st : AuthState) (now : Nat) : Bool :=
  match st.user with
  | none => true
  | some u =>
    match u.token with
    | none => true
    | some t => isTokenExpired t now

/-- The `useState` initializer of `AuthProvider` (AuthContext.tsx lines
72–84): parse the saved user; if it has a token and that token is
expired, remove the localStorage key and start with `null`.  Returns
the initial React user state together with the localStorage content
after initialization. -/
def authInit (savedUser : Option StoredUser) (now : Nat) :
    Option StoredUser × Option StoredUser :=
  match savedUser with
  | none => (none, none)
  | some u =>
    match u.token with
    | none => (some u, some u)
    | some t =>
      if isTokenExpired t now then (none, none) else (some u, some u)

/-! ## HTTP results -/

/-- Outcome of a `fetch`: a network failure (the promise rejects) or a
response with a status code and a parsed body. -/
inductive HttpResult (β : Type) where
  | netError : HttpResult β
  | response (status : Nat) (body : β) : HttpResult β
  deriving DecidableEq, Repr

/-- `response.ok`: status in the range 200–299. -/
def statusOk (status : Nat) : Bool :=
  200 ≤ status ∧ status ≤ 299

/-! ## Login (AuthContext.tsx, `loginWithExpirationHandling`, lines 136–224) -/

/-- The JSON body of a successful `/api/Auth/email-login` response,
restricted to the fields the source reads when hunting for the token.
`dataString` models `typeof data.data === 'string' ? data.data : null`. -/
structure LoginBody where
  token : Option JwtToken
  access_token : Option JwtToken
  accessToken : Option JwtToken
  authToken : Option JwtToken
  jwt : Option JwtToken
  data_token : Option JwtToken
  data_access_token : Option JwtToken
  dataString : Option JwtToken
  deriving DecidableEq, Repr

/-- The token hunt of lines 159–160:
`data.token || data.access_token || data.accessToken || data.authToken ||
 data.jwt || data.data?.token || data.data?.access_token ||
 (typeof data.data === 'string' ? data.data : null)`. -/
def extractToken (b : LoginBody) : Option JwtToken :=
  b.token <|> b.access_token <|> b.accessToken <|> b.authToken <|> b.jwt <|>
    b.data_token <|> b.data_access_token <|> b.dataString

/-- The JSON body of a `/api/Auth/profile` response, restricted to the
fields the source reads (`profileData.data?.x || profileData.x`). -/
structure ProfileBody where
  data_id : Option String
  data_firstName : Option String
  data_lastName : Option String
  data_profilePhoto : Option String
  id : Option String
  firstName : Option String
  lastName : Option String
  profilePhoto : Option String
  deriving DecidableEq, Repr

/-- Merge profile fields into the session object (lines 199–205). -/
def mergeProfile (u : StoredUser) (p : ProfileBody) : StoredUser :=
  { u with
    id := jsOrStr p.data_id p.id
    firstName := jsOrStr p.data_firstName p.firstName
    lastName := jsOrStr p.data_lastName p.lastName
    profilePhoto := jsOrStr p.data_profilePhoto p.profilePhoto }

/-- The profile-fetch tail of a successful login (lines 177–213): the
session object has already been stored; a 401/403 on the profile fetch
logs out and makes login return `false`; an ok response merges the
profile fields and re-stores; any other status or a network error is
swallowed and login returns `true`. -/
def loginProfileStep (st : AuthState) (userData : StoredUser)
    (profileResp : HttpResult ProfileBody) : Bool × AuthState :=
  match profileResp with
  | .netError => (true, st)
  | .response ps pbody =>
    if ps = 401 ∨ ps = 403 then (false, logout st)
    else if statusOk ps then
      let updated := mergeProfile userData pbody
      (true, { st with user := some updated, storage := some updated })
    else (true, st)

/-- `loginWithExpirationHandling` (lines 136–224), with the login and
profile HTTP outcomes supplied as parameters.  Returns the boolean the
function resolves to together with the resulting auth state. -/
def emailLogin (st : AuthState) (email : String)
    (loginResp : HttpResult LoginBody) (profileResp : HttpResult ProfileBody)
    (now : Nat) : Bool × AuthState :=
  match loginResp with
  | .netError => (false, st)
  | .response status body =>
    if status = 401 ∨ status = 403 then (false, st)
    else if statusOk status then
      let token := extractToken body
      match token with
      | some t =>
        if isTokenExpired t now then (false, st)
        else
          let userData : StoredUser := ⟨email, some t, none, none, none, none⟩
          loginProfileStep { st with user := some userData, storage := some userData }
            userData profileResp
      | none =>
        let userData : StoredUser := ⟨email, none, none, none, none, none⟩
        loginProfileStep { st with user := some userData, storage := some userData }
          userData profileResp
    else (false, st)

/-! ## Authenticated fetch wrappers (useApi.ts) -/

/-- `apiCall` from `useApi.ts` (lines 7–57).  When `requiresAuth` it
first runs `checkTokenExpiration` and returns `null` without fetching
when the context reports the token expired (the expiry check reads the
closure's `user`, i.e. the state before the check ran).  A 401/403
response with `requiresAuth` triggers `logout` and yields `null`; a
network error yields `null`; any other response is returned.  The first
component is the returned response status (`none` for `null`). -/
def apiCall (st : AuthState) (now : Nat) (requiresAuth : Bool)
    (resp : HttpResult Unit) : Option Nat × AuthState :=
  let st1 := if requiresAuth then checkTokenExpiration st now else st
  if requiresAuth ∧ isUserTokenExpired st now then (none, st1)
  else
    match resp with
    | .netError => (none, st1)
    | .response s _ =>
      if (s = 401 ∨ s = 403) ∧ requiresAuth then (none, logout st1)
      else (some s, st1)

/-- `makeAuthenticatedCall` from `useApi.ts` (lines 63–105).  On a
401/403 it calls the global `window.__authLogout` when the provider has
installed it, and returns `null`; a network error returns `null`; any
other response is returned. -/
def makeAuthenticatedCall (st : AuthState) (globalLogoutInstalled : Bool)
    (resp : HttpResult Unit) : Option Nat × AuthState :=
  match resp with
  | .netError => (none, st)
  | .response s _ =>
    if s = 401 ∨ s = 403 then
      (none, if globalLogoutInstalled then logout st else st)
    else (some s, st)

/-! ## `fetchOrders` (Orders page, unnamed source file, lines 33–75) -/

/-- The JSON body of a `/api/Order` response as the source reads it:
`data.success && data.data && data.data.data`; `rows` models
`data.data.data`, abstracting each order row to an opaque string id. -/
structure OrdersBody where
  success : Bool
  rows : Option (List String)
  deriving DecidableEq, Repr

/-- `fetchOrders`: a non-ok response throws (with the dedicated message
on 401); an ok response returns the rows (or `[]` when the envelope is
not in the expected shape).  The source never touches the auth state:
it neither logs out nor redirects, so the state is returned unchanged
on every path. -/
def fetchOrders (st : AuthState) (resp : HttpResult OrdersBody) :
    Except String (List String) × AuthState :=
  match resp with
  | .netError => (.error "network error", st)
  | .response s body =>
    if statusOk s then
      match body.rows with
      | some rows => (if body.success then (.ok rows, st) else (.ok [], st))
      | none => (.ok [], st)
    else if s = 401 then
      (.error "Authentication failed. Please log out and log in again.", st)
    else (.error ("Failed to fetch orders (" ++ toString s ++ ")"), st)

/-! ## `createCategory` (Categories.tsx, lines 79–137) -/

/-- The four authentication methods tried in order. -/
inductive AuthMethod where
  | bearer : AuthMethod
  | tokenOnly : AuthMethod
  | xAuthToken : AuthMethod
  | noAuth : AuthMethod
  deriving DecidableEq, Repr

def authMethods : List AuthMethod :=
  [.bearer, .tokenOnly, .xAuthToken, .noAuth]

/-- Outcome of one POST attempt: an ok response with a JSON body, a
non-ok response with a status and response text, or a thrown error. -/
inductive AttemptResult where
  | ok (body : String) : AttemptResult
  | httpError (status : Nat) (text : String) : AttemptResult
  | thrownErr (msg : String) : AttemptResult
  deriving DecidableEq, Repr

/-- The error message built when the final method fails with a non-ok
response (lines 116–127): a dedicated message on 401, otherwise the
parsed-or-raw response text. -/
def lastMethodError (status : Nat) (text : String) : String :=
  if status = 401 then "All authentication methods failed. Last error: " ++ text
  else "API Error (" ++ toString status ++ "): " ++ text

/-- The `for (const method of authMethods)` loop: return the body of the
first ok attempt; on a failed attempt continue unless the method is the
last one, in which case throw. -/
def tryAuthMethods (responses : AuthMethod → AttemptResult) :
    List AuthMethod → Option (Except String String)
  | [] => none
  | m :: rest =>
    match responses m with
    | .ok body => some (.ok body)
    | .httpError status text =>
      if rest.isEmpty then some (.error (lastMethodError status text))
      else tryAuthMethods responses rest
    | .thrownErr msg =>
      if rest.isEmpty then some (.error msg)
      else tryAuthMethods responses rest

/-- `createCategory`: run the loop over the four methods. -/
def createCategory (responses : AuthMethod → AttemptResult) :
    Option (Except String String) :=
  tryAuthMethods responses authMethods

/-- Whether an attempt outcome is an ok response. -/
def attemptOk : AttemptResult → Bool
  | .ok _ => true
  | _ => false

/-! ## Route table (App.tsx, lines 30–52) -/

inductive Page where
  | dashboard | categoriesPage | ordersPage | productsPage | usersPage
  | mediaTypesPage | paymentsPage | registerAdminPage | notFound | loginPage
  deriving DecidableEq, Repr

/-- The router of `App.tsx`: `/login` is a top-level public route; every
other path falls into the `/*` route, which renders `ProtectedRoute`
around the inner route table, whose `*` entry renders `NotFound`.
Returns the rendered page and whether it sits inside `ProtectedRoute`. -/
def resolveRoute (path : String) : Page × Bool :=
  if path = "/login" then (.loginPage, false)
  else
    ( if path = "/" then .dashboard
      else if path = "/categories" then .categoriesPage
      else if path = "/orders" then .ordersPage
      else if path = "/products" then .productsPage
      else if path = "/users" then .usersPage
      else if path = "/media-types" then .mediaTypesPage
      else if path = "/payments" then .paymentsPage
      else if path = "/register-admin" then .registerAdminPage
      else .notFound,
      true)

/-- The nine concrete paths of the route table. -/
def appPaths : List String :=
  ["/", "/categories", "/orders", "/products", "/users", "/media-types",
   "/payments", "/register-admin", "/login"]

/-! ## Mutation cache effects (Categories.tsx, Payments.tsx, MediaTypes.tsx)

Each `useMutation` registers an `onSuccess` and an `onError` callback;
we record the observable effects those callbacks perform, in order. -/

inductive UIEffect where
  | invalidateQuery (key : String) : UIEffect
  | closeModal (name : String) : UIEffect
  | clearEditing (name : String) : UIEffect
  | resetFormEffect : UIEffect
  | toastShown (title : String) (message : String) (destructive : Bool) : UIEffect
  deriving DecidableEq, Repr

/-- One resource mutation: the query key of its resource, the effects of
its `onSuccess` callback, and the effects of its `onError` callback as
a function of the error message. -/
structure ResourceMutation where
  resourceKey : String
  onSuccessEffects : List UIEffect
  onErrorEffects : String → List UIEffect

/-- Categories.tsx lines 277–301. -/
def categoriesCreateMutation : ResourceMutation :=
  ⟨"categories",
   [.invalidateQuery "categories", .closeModal "add", .resetFormEffect,
    .toastShown "Success" "Category created successfully" false],
   fun msg => [.toastShown "Error" msg true]⟩

/-- Categories.tsx lines 303–328. -/
def categoriesUpdateMutation : ResourceMutation :=
  ⟨"categories",
   [.invalidateQuery "categories", .closeModal "edit", .clearEditing "category",
    .resetFormEffect, .toastShown "Success" "Category updated successfully" false],
   fun msg => [.toastShown "Error" msg true]⟩

/-- Categories.tsx lines 330–354. -/
def categoriesDeleteMutation : ResourceMutation :=
  ⟨"categories",
   [.invalidateQuery "categories", .closeModal "delete", .clearEditing "category",
    .toastShown "Success" "Category deleted successfully" false],
   fun msg => [.toastShown "Error" msg true]⟩

/-- Payments.tsx lines 204–228. -/
def paymentsCreateMutation : ResourceMutation :=
  ⟨"paymentMethods",
   [.invalidateQuery "paymentMethods", .closeModal "add", .resetFormEffect,
    .toastShown "Success" "Payment method created successfully" false],
   fun msg => [.toastShown "Error" msg true]⟩

/-- Payments.tsx lines 230–255. -/
def paymentsUpdateMutation : ResourceMutation :=
  ⟨"paymentMethods",
   [.invalidateQuery "paymentMethods", .closeModal "edit",
    .clearEditing "paymentMethod", .resetFormEffect,
    .toastShown "Success" "Payment method updated successfully" false],
   fun msg => [.toastShown "Error" msg true]⟩

/-- Payments.tsx lines 257–280. -/
def paymentsDeleteMutation : ResourceMutation :=
  ⟨"paymentMethods",
   [.invalidateQuery "paymentMethods", .closeModal "delete",
    .clearEditing "paymentMethod",
    .toastShown "Success" "Payment method deleted successfully" false],
   fun msg => [.toastShown "Error" msg true]⟩

/-- MediaTypes.tsx lines 184–208. -/
def mediaTypesCreateMutation : ResourceMutation :=
  ⟨"mediaTypes",
   [.invalidateQuery "mediaTypes", .closeModal "add", .resetFormEffect,
    .toastShown "Success" "Media type created successfully" false],
   fun msg => [.toastShown "Error" msg true]⟩

/-- MediaTypes.tsx lines 210–234. -/
def mediaTypesUpdateMutation : ResourceMutation :=
  ⟨"mediaTypes",
   [.invalidateQuery "mediaTypes", .closeModal "edit", .clearEditing "mediaType",
    .resetFormEffect, .toastShown "Success" "Media type updated successfully" false],
   fun msg => [.toastShown "Error" msg true]⟩

/-- MediaTypes.tsx lines 236–259. -/
def mediaTypesDeleteMutation : ResourceMutation :=
  ⟨"mediaTypes",
   [.invalidateQuery "mediaTypes", .closeModal "delete", .clearEditing "mediaType",
    .toastShown "Success" "Media type deleted successfully" false],
   fun msg => [.toastShown "Error" msg true]⟩

/-- All nine resource mutations of the three pages. -/
def resourceMutations : List ResourceMutation :=
  [categoriesCreateMutation, categoriesUpdateMutation, categoriesDeleteMutation,
   paymentsCreateMutation, paymentsUpdateMutation, paymentsDeleteMutation,
   mediaTypesCreateMutation, mediaTypesUpdateMutation, mediaTypesDeleteMutation]

/-- The cache invalidations among a list of effects. -/
def invalidationsOf (effects : List UIEffect) : List String :=
  effects.filterMap fun e =>
    match e with
    | .invalidateQuery k => some k
    | _ => none

/-! ## Distinct-element bookkeeping

`insertOnce` models adding to a JS `Set` (and the first-seen key order of
a JS object keyed by strings); `distinctList` collects the distinct
elements of a list in first-occurrence order. -/

def insertOnce {α : Type} [DecidableEq α] (x : α) (xs : List α) : List α :=
  if x ∈ xs then xs else xs ++ [x]

def distinctList {α : Type} [DecidableEq α] (xs : List α) : List α :=
  xs.foldl (fun acc x => insertOnce x acc) []

/-! ## Seller / customer analytics (Dashboard page, unnamed source file,
lines 517–604) -/

/-- An order row as the seller/customer aggregations read it.  Both
casings of each field occur in the wild, and the source checks both. -/
structure OrderRec where
  sellerId : Option String
  capSellerId : Option String
  sellerName : Option String
  capSellerName : Option String
  customerId : Option String
  capCustomerId : Option String
  customerName : Option String
  capCustomerName : Option String
  totalAmount : Option Int
  deriving DecidableEq, Repr

/-- `order.sellerId || order.SellerId || 'unknown'`. -/
def effSellerKey (o : OrderRec) : String :=
  strVal o.sellerId (strVal o.capSellerId "unknown")

/-- `order.sellerName || order.SellerName || 'Unknown Seller'`. -/
def effSellerName (o : OrderRec) : String :=
  strVal o.sellerName (strVal o.capSellerName "Unknown Seller")

/-- `order.customerId || order.CustomerId || 'unknown'`. -/
def effCustomerKey (o : OrderRec) : String :=
  strVal o.customerId (strVal o.capCustomerId "unknown")

/-- `order.customerName || order.CustomerName || 'Unknown Customer'`. -/
def effCustomerName (o : OrderRec) : String :=
  strVal o.customerName (strVal o.capCustomerName "Unknown Customer")

/-- `order.totalAmount || 0` (an amount of `0` is falsy and also maps
to `0`). -/
def effAmount (o : OrderRec) : Int :=
  match o.totalAmount with
  | none => 0
  | some a => a

/-- The per-key record of the aggregation dictionaries
(`{ count, totalRevenue, name }`). -/
structure GroupData where
  count : Nat
  totalRevenue : Int
  groupName : String
  deriving DecidableEq, Repr

/-- One iteration of the `orderData.forEach` loop: look the key up in
the dictionary, creating the entry on first sight, then add one to the
count and the order's amount to the revenue. -/
def groupStep {α : Type} (key nameFn : α → String) (amount : α → Int)
    (acc : List (String × GroupData)) (o : α) : List (String × GroupData) :=
  let k := key o
  if (acc.find? (fun p => p.1 = k)).isSome then
    acc.map fun p =>
      if p.1 = k then
        (p.1, { p.2 with count := p.2.count + 1,
                         totalRevenue := p.2.totalRevenue + amount o })
      else p
  else
    acc ++ [(k, ⟨1, amount o, nameFn o⟩)]

/-- The whole `forEach` loop: the dictionary built over the order list,
as an association list in JS string-key insertion order. -/
def groupOrders {α : Type} (key nameFn : α → String) (amount : α → Int)
    (orders : List α) : List (String × GroupData) :=
  orders.foldl (groupStep key nameFn amount) []

/-- A chart row (`{ sellerId/customerId, name, count, revenue }`). -/
structure AggRow where
  rowId : String
  rowName : String
  count : Nat
  revenue : Int
  deriving DecidableEq, Repr

/-- Descending order on `count`, the comparator
`(a, b) => b.count - a.count`. -/
def aggCountGE (a b : AggRow) : Prop := b.count ≤ a.count

instance : DecidableRel aggCountGE := fun a b => Nat.decLe b.count a.count

instance : IsTotal AggRow aggCountGE := ⟨fun a b => Nat.le_total b.count a.count⟩

instance : IsTrans AggRow aggCountGE := ⟨fun _ _ _ hab hbc => le_trans hbc hab⟩

/-- `Object.entries(dict).map(...).sort((a,b) => b.count - a.count).slice(0, 5)`
(JS sort is stable, matching insertion sort). -/
def aggAnalytics {α : Type} (key nameFn : α → String) (amount : α → Int)
    (orders : List α) : List AggRow :=
  (((groupOrders key nameFn amount orders).map fun p =>
      AggRow.mk p.1 p.2.groupName p.2.count p.2.totalRevenue).insertionSort
    aggCountGE).take 5

/-- `sellerAnalytics` (Dashboard page, lines 517–559). -/
def sellerAnalytics (orders : List OrderRec) : List AggRow :=
  aggAnalytics effSellerKey effSellerName effAmount orders

/-- `customerAnalytics` (Dashboard page, lines 562–604). -/
def customerAnalytics (orders : List OrderRec) : List AggRow :=
  aggAnalytics effCustomerKey effCustomerName effAmount orders

/-! ## Most-ordered products (Dashboard page, lines 607–683) -/

/-- An order item as the product aggregation reads it.  `itemId` models
`item.id` and `nestedName` models `item.Product?.name`. -/
structure PItem where
  productId : Option String
  capProductId : Option String
  product_id : Option String
  itemId : Option String
  itemName : Option String
  productName : Option String
  nestedName : Option String
  quantity : Option Nat
  totalPrice : Option Int
  price : Option Int
  imageUrl : Option String
  image : Option String
  deriving DecidableEq, Repr

/-- An order as the product aggregation reads it. -/
structure POrder where
  orderId : Option String
  items : List PItem
  deriving DecidableEq, Repr

/-- `item.productId || item.ProductId || item.product_id || item.id`. -/
def itemPid (it : PItem) : Option String :=
  jsOrStr it.productId (jsOrStr it.capProductId (jsOrStr it.product_id it.itemId))

/-- `item.name || item.productName || item.Product?.name || 'Unknown Product'`. -/
def itemName (it : PItem) : String :=
  strVal it.itemName (strVal it.productName (strVal it.nestedName "Unknown Product"))

/-- The dictionary key of an item:
`if (productId || productName !== 'Unknown Product') { const key =
productId || `name_${productName}`; ... }`; items passing neither test
are skipped (`none`). -/
def itemKey (it : PItem) : Option String :=
  if strTruthy (itemPid it) then itemPid it
  else if itemName it = "Unknown Product" then none
  else some ("name_" ++ itemName it)

/-- `item.quantity || 1`. -/
def effQty (it : PItem) : Nat :=
  match it.quantity with
  | none => 1
  | some q => if q = 0 then 1 else q

/-- `item.price * (item.quantity || 1)`, with the JS `undefined * x = NaN`
(falsy) collapsing to the final `|| 0`. -/
def effPriceQty (it : PItem) : Int :=
  match it.price with
  | none => 0
  | some p => p * (effQty it : Int)

/-- `item.totalPrice || (item.price * (item.quantity || 1)) || 0`. -/
def effItemRevenue (it : PItem) : Int :=
  match it.totalPrice with
  | some t => if t = 0 then effPriceQty it else t
  | none => effPriceQty it

/-- `order.id || `order_${orderIndex}``. -/
def effOrderId (idx : Nat) (o : POrder) : String :=
  strVal o.orderId ("order_" ++ toString idx)

/-- The per-key record of the product dictionary
(`{ orderIds: Set, totalRevenue, product, totalQuantity }`); the JS
`Set` of order ids is a duplicate-free list in insertion order. -/
structure ProdData where
  orderIds : List String
  totalRevenue : Int
  product : PItem
  totalQuantity : Nat
  deriving DecidableEq, Repr

/-- One iteration of the inner `order.items.forEach` loop, generic in
the function assigning a dictionary key to an item. -/
def prodItemStepK (keyFn : PItem → Option String) (oid : String)
    (acc : List (String × ProdData)) (it : PItem) :
    List (String × ProdData) :=
  match keyFn it with
  | none => acc
  | some k =>
    if (acc.find? (fun p => p.1 = k)).isSome then
      acc.map fun p =>
        if p.1 = k then
          (p.1, { p.2 with orderIds := insertOnce oid p.2.orderIds,
                           totalRevenue := p.2.totalRevenue + effItemRevenue it,
                           totalQuantity := p.2.totalQuantity + effQty it })
        else p
    else
      acc ++ [(k, ⟨[oid], effItemRevenue it, it, effQty it⟩)]

/-- One iteration of the outer `orderData.forEach` loop (an order with
no items contributes nothing, as in the source's early `return`). -/
def prodOrderStepK (keyFn : PItem → Option String)
    (acc : List (String × ProdData)) (p : Nat × POrder) :
    List (String × ProdData) :=
  p.2.items.foldl (prodItemStepK keyFn (effOrderId p.1 p.2)) acc

/-- The product dictionary built over the enumerated order list, generic
in the item-key function. -/
def productCountsK (keyFn : PItem → Option String) (orders : List POrder) :
    List (String × ProdData) :=
  orders.enum.foldl (prodOrderStepK keyFn) []

/-- The `productCounts` dictionary of the source, keyed by `itemKey`. -/
def productCounts (orders : List POrder) : List (String × ProdData) :=
  productCountsK itemKey orders

/-- A ranked product row. -/
structure ProdRow where
  rowPid : String
  rowName : String
  orderCount : Nat
  totalQuantity : Nat
  revenue : Int
  price : Int
  imageUrl : Option String
  deriving DecidableEq, Repr

/-- Descending order on `orderCount`, the comparator
`(a, b) => b.orderCount - a.orderCount`. -/
def prodCountGE (a b : ProdRow) : Prop := b.orderCount ≤ a.orderCount

instance : DecidableRel prodCountGE := fun a b => Nat.decLe b.orderCount a.orderCount

instance : IsTotal ProdRow prodCountGE := ⟨fun a b => Nat.le_total b.orderCount a.orderCount⟩

instance : IsTrans ProdRow prodCountGE := ⟨fun _ _ _ hab hbc => le_trans hbc hab⟩

/-- `data.product.price || 0`. -/
def effPrice (it : PItem) : Int :=
  match it.price with
  | none => 0
  | some p => p

/-- `Object.entries(productCounts).map(...)`: project each dictionary
entry to a row; `orderCount` is the size of the order-id set. -/
def prodEntryRow (p : String × ProdData) : ProdRow :=
  ⟨p.1,
   strVal p.2.product.itemName
     (strVal p.2.product.productName (strVal p.2.product.nestedName "Unknown Product")),
   p.2.orderIds.length,
   p.2.totalQuantity,
   p.2.totalRevenue,
   effPrice p.2.product,
   jsOrStr p.2.product.imageUrl p.2.product.image⟩

/-- `mostOrderedProducts` (Dashboard page, lines 607–683): build the
dictionary, rank by number of distinct orders, keep the top five. -/
def mostOrderedProducts (orders : List POrder) : List ProdRow :=
  (((productCounts orders).map prodEntryRow).insertionSort prodCountGE).take 5

/-- The item key as claim C6's sentence describes it: the productId, or
the product name when the productId is missing — with no fallback to the
order item's own `id` field and no skipping.  This definition follows
the claim's words, for comparison with `itemKey`, which follows the
source. -/
def claimItemKey (it : PItem) : Option String :=
  let pid := jsOrStr it.productId (jsOrStr it.capProductId it.product_id)
  if strTruthy pid then pid
  else some ("name_" ++ itemName it)

/-- The most-ordered-products ranking as claim C6 describes it, i.e. the
source pipeline run with `claimItemKey` instead of `itemKey`. -/
def mostOrderedProductsClaim (orders : List POrder) : List ProdRow :=
  (((productCountsK claimItemKey orders).map prodEntryRow).insertionSort
    prodCountGE).take 5

/-! ## Invariant of the seller/customer grouping fold -/

/-- After the fold has consumed `processed`, the dictionary's keys are
exactly the keys of the processed orders, and each entry holds the count
and amount-sum of its group. -/
def groupInvariant {α : Type} (key : α → String) (amount : α → Int)
    (processed : List α) (acc : List (String × GroupData)) : Prop :=
  (∀ k, k ∈ acc.map Prod.fst ↔ k ∈ processed.map key) ∧
  ∀ k d, (k, d) ∈ acc →
    d.count = (processed.filter fun o => key o = k).length ∧
    d.totalRevenue = (((processed.filter fun o => key o = k)).map amount).sum

/-! ## Specification views of the product fold, and concrete inputs -/

/-- Whether some item of the order carries the given dictionary key. -/
def orderHasKey (keyFn : PItem → Option String) (k : String) (o : POrder) : Bool :=
  o.items.any fun it => keyFn it = some k

/-- The effective ids, in order, of the enumerated orders containing the
key (with multiplicity; distinctness comes from `distinctList`). -/
def keyOrderIds (keyFn : PItem → Option String) (k : String)
    (eOrders : List (Nat × POrder)) : List String :=
  (eOrders.filter fun p => orderHasKey keyFn k p.2).map fun p =>
    effOrderId p.1 p.2

/-- The quantity contributed to a key by one order's items. -/
def orderKeyQty (keyFn : PItem → Option String) (k : String) (o : POrder) : Nat :=
  ((o.items.filter fun it => keyFn it = some k).map effQty).sum

/-- The quantity contributed to a key by a list of items. -/
def itemsKeyQty (keyFn : PItem → Option String) (k : String)
    (its : List PItem) : Nat :=
  ((its.filter fun it => keyFn it = some k).map effQty).sum

/-- The total quantity of a key over the enumerated orders. -/
def keyQuantity (keyFn : PItem → Option String) (k : String)
    (eOrders : List (Nat × POrder)) : Nat :=
  (eOrders.map fun p => orderKeyQty keyFn k p.2).sum

/-- Invariant of the product fold: the dictionary's keys are the keys of
the processed orders' items, and each entry holds the distinct effective
order ids of its key and the key's quantity sum. -/
def prodInvariant (keyFn : PItem → Option String)
    (processed : List (Nat × POrder)) (acc : List (String × ProdData)) : Prop :=
  (∀ k, k ∈ acc.map Prod.fst ↔ ∃ p ∈ processed, orderHasKey keyFn k p.2 = true) ∧
  ∀ k d, (k, d) ∈ acc →
    d.orderIds = distinctList (keyOrderIds keyFn k processed) ∧
    d.totalQuantity = keyQuantity keyFn k processed

/-- Position of a method in the `authMethods` list. -/
def methodIndex : AuthMethod → Nat
  | .bearer => 0
  | .tokenOnly => 1
  | .xAuthToken => 2
  | .noAuth => 3

/-! ## Concrete inputs used by witnesses and counterexamples -/

/-- A session with a far-future expiry. -/
def validUser : StoredUser :=
  ⟨"admin@shop.com", some (.wellFormed ⟨some 9999⟩), none, none, none, none⟩

def c1State : AuthState := ⟨some validUser, some validUser, none⟩

def c1OrdersBody : OrdersBody := ⟨false, none⟩

/-- A stored session whose token's `exp` claim is `0`. -/
def c4User : StoredUser :=
  ⟨"a@b.c", some (.wellFormed ⟨some 0⟩), none, none, none, none⟩

/-- A stored session whose token expires at second 5. -/
def c4ExpUser : StoredUser :=
  ⟨"x@y.z", some (.wellFormed ⟨some 5⟩), none, none, none, none⟩

def c4ExpState : AuthState := ⟨some c4ExpUser, some c4ExpUser, none⟩

/-- A login body carrying a valid token under the `token` key. -/
def c3LoginBody : LoginBody :=
  ⟨some (.wellFormed ⟨some 1000⟩), none, none, none, none, none, none, none⟩

/-- A login body carrying no token under any recognized key. -/
def c9LoginBody : LoginBody := ⟨none, none, none, none, none, none, none, none⟩

def emptyProfileBody : ProfileBody := ⟨none, none, none, none, none, none, none, none⟩

def c5ExOrders : List OrderRec :=
  [⟨some "s1", none, some "Alice", none, some "c1", none, some "Carl", none, some 10⟩,
   ⟨some "s1", none, some "Alice", none, some "c2", none, some "Dina", none, none⟩,
   ⟨none, some "s2", none, some "Bob", none, none, none, none, some 7⟩]

/-- An item with no product-id fields but an own `id` and a name. -/
def c6ItemA : PItem :=
  ⟨none, none, none, some "i1", some "Foo", none, none, none, none, none, none, none⟩

/-- An item with no id fields at all and the same name. -/
def c6ItemB : PItem :=
  ⟨none, none, none, none, some "Foo", none, none, none, none, none, none, none⟩

def c6ExOrders : List POrder := [⟨some "o1", [c6ItemA]⟩, ⟨some "o2", [c6ItemB]⟩]

/-- Responses where only the credential-less attempt succeeds. -/
def c8Responses : AuthMethod → AttemptResult
  | .noAuth => .ok "created-category"
  | _ => .httpError 401 "Unauthorized"

/-! ## Lemmas about `insertOnce` and `distinctList` -/

theorem mem_insertOnce {α : Type} [DecidableEq α] (a x : α) (xs : List α) :
    a ∈ insertOnce x xs ↔ a = x ∨ a ∈ xs := by
  unfold insertOnce
  split
  · constructor
    · exact fun h => Or.inr h
    · rintro (rfl | h) <;> assumption
  · simp [or_comm]

theorem self_mem_insertOnce {α : Type} [DecidableEq α] (x : α) (xs : List α) :
    x ∈ insertOnce x xs :=
  (mem_insertOnce x x xs).mpr (Or.inl rfl)

theorem insertOnce_of_mem {α : Type} [DecidableEq α] {x : α} {xs : List α}
    (h : x ∈ xs) : insertOnce x xs = xs := by
  unfold insertOnce
  simp [h]

theorem insertOnce_idem {α : Type} [DecidableEq α] (x : α) (xs : List α) :
    insertOnce x (insertOnce x xs) = insertOnce x xs :=
  insertOnce_of_mem (self_mem_insertOnce x xs)

theorem nodup_insertOnce {α : Type} [DecidableEq α] (x : α) {xs : List α}
    (h : xs.Nodup) : (insertOnce x xs).Nodup := by
  unfold insertOnce
  split
  · exact h
  · rename_i hx
    rw [List.nodup_append]
    refine ⟨h, List.nodup_singleton x, ?_⟩
    intro a ha hmem
    rw [List.mem_singleton] at hmem
    exact hx (hmem ▸ ha)

theorem distinctList_append_singleton {α : Type} [DecidableEq α]
    (xs : List α) (x : α) :
    distinctList (xs ++ [x]) = insertOnce x (distinctList xs) := by
  unfold distinctList
  rw [List.foldl_append]
  rfl

theorem mem_distinctList {α : Type} [DecidableEq α] (a : α) (xs : List α) :
    a ∈ distinctList xs ↔ a ∈ xs := by
  induction xs using List.reverseRecOn with
  | nil => simp [distinctList]
  | append_singleton l x ih =>
    rw [distinctList_append_singleton, mem_insertOnce]
    simp [ih, or_comm]

theorem nodup_distinctList {α : Type} [DecidableEq α] (xs : List α) :
    (distinctList xs).Nodup := by
  induction xs using List.reverseRecOn with
  | nil => exact List.nodup_nil
  | append_singleton l x ih =>
    rw [distinctList_append_singleton]
    exact nodup_insertOnce x ih

theorem length_distinctList {α : Type} [DecidableEq α] (xs : List α) :
    (distinctList xs).length = xs.dedup.length := by
  have htf : (distinctList xs).toFinset = xs.toFinset := by
    apply Finset.ext
    intro a
    simp [List.mem_toFinset, mem_distinctList]
  calc (distinctList xs).length
      = (distinctList xs).toFinset.card :=
        (List.toFinset_card_of_nodup (nodup_distinctList xs)).symm
    _ = xs.toFinset.card := by rw [htf]
    _ = xs.dedup.length := List.card_toFinset xs

theorem distinctList_nil_of_not_mem {α : Type} [DecidableEq α] {xs : List α}
    (h : xs = []) : distinctList xs = [] := by
  subst h
  rfl

theorem filter_eq_nil_of_key_not_mem {α : Type} (key : α → String)
    {processed : List α} {k : String} (h : k ∉ processed.map key) :
    (processed.filter fun o => key o = k) = [] := by
  rw [List.filter_eq_nil_iff]
  intro o ho
  simp only [decide_eq_true_eq]
  intro e
  exact h (List.mem_map.mpr ⟨o, ho, e⟩)


theorem filter_key_append_pos {α : Type} (key : α → String)
    (processed : List α) (o : α) (k : String) (h : key o = k) :
    ((processed ++ [o]).filter fun x => key x = k) =
      (processed.filter fun x => key x = k) ++ [o] := by
  rw [List.filter_append]
  simp [h]

theorem filter_key_append_neg {α : Type} (key : α → String)
    (processed : List α) (o : α) (k : String) (h : ¬ key o = k) :
    ((processed ++ [o]).filter fun x => key x = k) =
      processed.filter fun x => key x = k := by
  rw [List.filter_append]
  simp [h]

theorem find_key_isSome_iff {β : Type} (acc : List (String × β)) (k : String) :
    (acc.find? fun p => p.1 = k).isSome = true ↔ k ∈ acc.map Prod.fst := by
  rw [List.find?_isSome]
  constructor
  · rintro ⟨p, hp, hpk⟩
    simp only [decide_eq_true_eq] at hpk
    exact List.mem_map.mpr ⟨p, hp, hpk⟩
  · intro h
    obtain ⟨p, hp, hpk⟩ := List.mem_map.mp h
    exact ⟨p, hp, by simp [hpk]⟩

theorem groupStep_invariant {α : Type} (key nameFn : α → String)
    (amount : α → Int) (processed : List α)
    (acc : List (String × GroupData)) (o : α)
    (h : groupInvariant key amount processed acc) :
    groupInvariant key amount (processed ++ [o])
      (groupStep key nameFn amount acc o) := by
  obtain ⟨hkeys, hent⟩ := h
  simp only [groupStep]
  by_cases hf : (acc.find? fun p => p.1 = key o).isSome = true
  · -- the key already has an entry: every matching entry is updated
    have hkmem : key o ∈ acc.map Prod.fst := (find_key_isSome_iff acc (key o)).mp hf
    rw [if_pos hf]
    constructor
    · intro k
      have hmapfst : ((acc.map fun p =>
          if p.1 = key o then
            (p.1, { p.2 with count := p.2.count + 1,
                             totalRevenue := p.2.totalRevenue + amount o })
          else p).map Prod.fst) = acc.map Prod.fst := by
        rw [List.map_map]
        apply List.map_congr_left
        intro p _
        by_cases hp : p.1 = key o <;> simp [hp]
      rw [hmapfst, hkeys k, List.map_append]
      simp only [List.map_cons, List.map_nil, List.mem_append, List.mem_singleton]
      constructor
      · intro hk
        exact Or.inl hk
      · rintro (hk | hk)
        · exact hk
        · rw [hk]
          exact (hkeys (key o)).mp hkmem
    · intro k d hd
      obtain ⟨⟨p1, p2⟩, hp, hpe⟩ := List.mem_map.mp hd
      by_cases hpk : p1 = key o
      · rw [if_pos hpk] at hpe
        rw [Prod.mk.injEq] at hpe
        obtain ⟨hk, hdval⟩ := hpe
        have hbase := hent p1 p2 hp
        have hko : key o = k := hpk.symm.trans hk
        rw [filter_key_append_pos key processed o k hko, ← hdval]
        have hk2 : p1 = k := hk
        rw [hk2] at hbase
        constructor
        · simp [hbase.1]
        · simp [hbase.2]
      · rw [if_neg hpk] at hpe
        rw [Prod.mk.injEq] at hpe
        obtain ⟨hk, hdval⟩ := hpe
        subst hk
        subst hdval
        have hbase := hent p1 p2 hp
        have hkne : ¬ key o = p1 := fun e => hpk e.symm
        rw [filter_key_append_neg key processed o p1 hkne]
        exact hbase
  · -- first occurrence of the key: a fresh entry is appended
    have hknmem : key o ∉ acc.map Prod.fst :=
      fun hm => hf ((find_key_isSome_iff acc (key o)).mpr hm)
    rw [if_neg hf]
    constructor
    · intro k
      simp only [List.map_append, List.map_cons, List.map_nil, List.mem_append,
        List.mem_singleton]
      rw [hkeys k]
    · intro k d hd
      rcases List.mem_append.mp hd with hd | hd
      · have hp1 : k ∈ acc.map Prod.fst := List.mem_map.mpr ⟨(k, d), hd, rfl⟩
        have hkne : ¬ key o = k := fun e => hknmem (e ▸ hp1)
        rw [filter_key_append_neg key processed o k hkne]
        exact hent k d hd
      · rw [List.mem_singleton, Prod.mk.injEq] at hd
        obtain ⟨hk, hdval⟩ := hd
        have hempty : (processed.filter fun x => key x = k) = [] := by
          apply filter_eq_nil_of_key_not_mem key
          intro hm
          exact hknmem ((hkeys (key o)).mpr (hk ▸ hm))
        rw [filter_key_append_pos key processed o k hk.symm, hempty, hdval]
        constructor <;> simp

theorem groupOrders_invariant_aux {α : Type} (key nameFn : α → String)
    (amount : α → Int) :
    ∀ (rest processed : List α) (acc : List (String × GroupData)),
      groupInvariant key amount processed acc →
      groupInvariant key amount (processed ++ rest)
        (rest.foldl (groupStep key nameFn amount) acc) := by
  intro rest
  induction rest with
  | nil =>
    intro processed acc h
    simpa using h
  | cons o rs ih =>
    intro processed acc h
    have h1 := groupStep_invariant key nameFn amount processed acc o h
    have h2 := ih (processed ++ [o]) _ h1
    simpa [List.append_assoc] using h2

theorem groupOrders_invariant {α : Type} (key nameFn : α → String)
    (amount : α → Int) (orders : List α) :
    groupInvariant key amount orders
      (groupOrders key nameFn amount orders) := by
  have h0 : groupInvariant key amount ([] : List α) [] := by
    constructor
    · intro k
      simp
    · intro k d hd
      simp at hd
  have := groupOrders_invariant_aux key nameFn amount orders [] [] h0
  simpa [groupOrders] using this

/-- Characterization of each row of `aggAnalytics`: its count is the
number of orders in its group and its revenue the group's amount sum. -/
theorem aggAnalytics_mem {α : Type} (key nameFn : α → String)
    (amount : α → Int) (orders : List α) (e : AggRow)
    (he : e ∈ aggAnalytics key nameFn amount orders) :
    e.count = (orders.filter fun o => key o = e.rowId).length ∧
    e.revenue = ((orders.filter fun o => key o = e.rowId).map amount).sum := by
  have h1 : e ∈ ((groupOrders key nameFn amount orders).map fun p =>
      AggRow.mk p.1 p.2.groupName p.2.count p.2.totalRevenue).insertionSort
      aggCountGE := List.mem_of_mem_take he
  have h2 : e ∈ (groupOrders key nameFn amount orders).map fun p =>
      AggRow.mk p.1 p.2.groupName p.2.count p.2.totalRevenue :=
    (List.mem_insertionSort aggCountGE).mp h1
  obtain ⟨⟨k, d⟩, hp, hpe⟩ := List.mem_map.mp h2
  obtain ⟨-, hent⟩ := groupOrders_invariant key nameFn amount orders
  have hbase := hent k d hp
  rw [← hpe]
  exact hbase

/-- The rows of `aggAnalytics` are sorted by descending count. -/
theorem aggAnalytics_sorted {α : Type} (key nameFn : α → String)
    (amount : α → Int) (orders : List α) :
    (aggAnalytics key nameFn amount orders).Pairwise aggCountGE := by
  have hs : (((groupOrders key nameFn amount orders).map fun p =>
      AggRow.mk p.1 p.2.groupName p.2.count p.2.totalRevenue).insertionSort
      aggCountGE).Sorted aggCountGE := List.sorted_insertionSort aggCountGE _
  exact hs.sublist (List.take_sublist 5 _)

/-- `aggAnalytics` keeps at most five rows. -/
theorem aggAnalytics_length {α : Type} (key nameFn : α → String)
    (amount : α → Int) (orders : List α) :
    (aggAnalytics key nameFn amount orders).length ≤ 5 := by
  calc (aggAnalytics key nameFn amount orders).length
      ≤ 5 := by
        unfold aggAnalytics
        exact (List.length_take_le 5 _)

/-! ## Small auth lemmas -/

theorem checkTokenExpiration_of_not_expired (st : AuthState) (now : Nat)
    (h : isUserTokenExpired st now = false) :
    checkTokenExpiration st now = st := by
  rcases hu : st.user with - | u
  · simp [checkTokenExpiration, hu]
  · rcases ht : u.token with - | t
    · simp [checkTokenExpiration, hu, ht]
    · have hexp : isTokenExpired t now = false := by
        simpa [isUserTokenExpired, hu, ht] using h
      simp [checkTokenExpiration, hu, ht, hexp]

theorem not_auth_error_of_ok {s : Nat} (h : statusOk s = true) :
    ¬(s = 401 ∨ s = 403) := by
  rintro (rfl | rfl) <;> exact absurd h (by decide)

/-! ## Claim C10 -/

/-- C10: `isTokenExpired` is total: a token whose payload cannot be
decoded is treated as expired (`true`), and a well-formed payload with
no `exp` claim is never treated as expired (the JS expression
`payload.exp && payload.exp < currentTime` is falsy). -/
theorem claim10_isTokenExpired_totality (now : Nat) (p : JwtPayload) :
    isTokenExpired .malformed now = true ∧
    (p.exp = none → isTokenExpired (.wellFormed p) now = false) := by
  constructor
  · rfl
  · intro h
    simp [isTokenExpired, h]

/-- Witness for C10 at the payload with no `exp` claim. -/
theorem claim10_witness :
    (JwtPayload.mk none).exp = none ∧
    isTokenExpired (.wellFormed (JwtPayload.mk none)) 1000 = false :=
  ⟨rfl, (claim10_isTokenExpired_totality 1000 ⟨none⟩).2 rfl⟩

/-! ## Claim C4 -/

/-- C4 counterexample: a stored user whose token's `exp` claim is `0`
lies in the past at time 1000, yet the provider initializer keeps the
session (the JS guard `payload.exp &&` makes a zero `exp` falsy), so
the claim that every stored user with a past `exp` is removed is false. -/
theorem claim4_counterexample :
    (0 : Nat) < 1000 ∧
    authInit (some c4User) 1000 = (some c4User, some c4User) := by
  constructor
  · decide
  · rfl

/-- C4 (amended): the application never retains a session whose token is
malformed or carries a NONZERO `exp` claim in the past: initialization
drops such a stored user, and `checkTokenExpiration` logs the user out. -/
theorem claim4_no_expired_session_retained (u : StoredUser) (st : AuthState)
    (t : JwtToken) (now : Nat)
    (hexp : t = .malformed ∨ ∃ e, t = .wellFormed ⟨some e⟩ ∧ 0 < e ∧ e < now) :
    (u.token = some t → authInit (some u) now = (none, none)) ∧
    (st.user = some u → u.token = some t →
      checkTokenExpiration st now = logout st) := by
  have hex : isTokenExpired t now = true := by
    rcases hexp with rfl | ⟨e, rfl, he0, hlt⟩
    · rfl
    · simp [isTokenExpired, Nat.pos_iff_ne_zero.mp he0, hlt]
  constructor
  · intro ht
    simp [authInit, ht, hex]
  · intro hu ht
    simp [checkTokenExpiration, hu, ht, hex]

/-- Witness for C4 at a token expiring at second 5, checked at second 10. -/
theorem claim4_witness :
    authInit (some c4ExpUser) 10 = (none, none) ∧
    checkTokenExpiration c4ExpState 10 = logout c4ExpState :=
  ⟨(claim4_no_expired_session_retained c4ExpUser c4ExpState
      (.wellFormed ⟨some 5⟩) 10 (Or.inr ⟨5, rfl, by decide, by decide⟩)).1 rfl,
   (claim4_no_expired_session_retained c4ExpUser c4ExpState
      (.wellFormed ⟨some 5⟩) 10 (Or.inr ⟨5, rfl, by decide, by decide⟩)).2 rfl rfl⟩

/-! ## Claim C2 -/

/-- C2: every create/update/delete mutation of categories, payment
methods, and media types invalidates exactly the cached query of its
resource on success, and invalidates nothing on error. -/
theorem claim2_mutations_invalidate_resource_cache :
    ∀ m ∈ resourceMutations,
      invalidationsOf m.onSuccessEffects = [m.resourceKey] ∧
      ∀ msg, invalidationsOf (m.onErrorEffects msg) = [] := by
  intro m hm
  simp only [resourceMutations, List.mem_cons, List.mem_singleton,
    List.not_mem_nil, or_false] at hm
  rcases hm with rfl | rfl | rfl | rfl | rfl | rfl | rfl | rfl | rfl <;>
    exact ⟨rfl, fun _ => rfl⟩

/-- Witness for C2 at the category-create mutation. -/
theorem claim2_witness :
    categoriesCreateMutation ∈ resourceMutations ∧
    invalidationsOf categoriesCreateMutation.onSuccessEffects = ["categories"] ∧
    invalidationsOf (categoriesCreateMutation.onErrorEffects "boom") = [] := by
  have hm : categoriesCreateMutation ∈ resourceMutations := by
    unfold resourceMutations
    exact List.mem_cons_self _ _
  have h := claim2_mutations_invalidate_resource_cache categoriesCreateMutation hm
  exact ⟨hm, h.1, h.2 "boom"⟩

/-! ## Claim C7 -/

/-- C7: the route surface is exactly the nine listed paths; `/login` is
the only one outside `ProtectedRoute`, and every unknown path renders
the not-found page (inside `ProtectedRoute`). -/
theorem claim7_route_surface :
    appPaths.map resolveRoute =
      [(.dashboard, true), (.categoriesPage, true), (.ordersPage, true),
       (.productsPage, true), (.usersPage, true), (.mediaTypesPage, true),
       (.paymentsPage, true), (.registerAdminPage, true), (.loginPage, false)] ∧
    ∀ path, path ∉ appPaths → resolveRoute path = (.notFound, true) := by
  constructor
  · rfl
  · intro path h
    simp only [appPaths, List.mem_cons, List.not_mem_nil, or_false,
      not_or] at h
    obtain ⟨h1, h2, h3, h4, h5, h6, h7, h8, h9⟩ := h
    simp [resolveRoute, h1, h2, h3, h4, h5, h6, h7, h8, h9]

/-- Witness for C7 at an unknown path. -/
theorem claim7_witness :
    "/nope" ∉ appPaths ∧ resolveRoute "/nope" = (.notFound, true) :=
  ⟨by decide, claim7_route_surface.2 "/nope" (by decide)⟩

/-! ## Claim C8 -/

theorem tryAuthMethods_ok_cons (responses : AuthMethod → AttemptResult)
    (m : AuthMethod) (ms : List AuthMethod) (b : String)
    (h : responses m = .ok b) :
    tryAuthMethods responses (m :: ms) = some (.ok b) := by
  simp [tryAuthMethods, h]

theorem tryAuthMethods_skip (responses : AuthMethod → AttemptResult)
    (m : AuthMethod) (ms : List AuthMethod)
    (h : attemptOk (responses m) = false) (hne : ms.isEmpty = false) :
    tryAuthMethods responses (m :: ms) = tryAuthMethods responses ms := by
  rcases hr : responses m with b | ⟨s, t⟩ | msg
  · rw [hr] at h
    simp [attemptOk] at h
  · simp [tryAuthMethods, hr, hne]
  · simp [tryAuthMethods, hr, hne]

theorem tryAuthMethods_all_fail (responses : AuthMethod → AttemptResult) :
    ∀ ms : List AuthMethod, ms ≠ [] →
      (∀ m ∈ ms, attemptOk (responses m) = false) →
      ∃ msg, tryAuthMethods responses ms = some (.error msg) := by
  intro ms
  induction ms with
  | nil => intro h; exact absurd rfl h
  | cons m rest ih =>
    intro _ hall
    rcases hr : responses m with b | ⟨s, t⟩ | msg
    · have := hall m (List.mem_cons_self m rest)
      rw [hr] at this
      simp [attemptOk] at this
    · rcases hrest : rest with - | ⟨m2, rest2⟩
      · exact ⟨lastMethodError s t, by simp [tryAuthMethods, hr]⟩
      · have hne : rest.isEmpty = false := by rw [hrest]; rfl
        obtain ⟨msg2, hmsg⟩ := ih (by rw [hrest]; exact List.cons_ne_nil m2 rest2)
          (fun m2 hm2 => hall m2 (List.mem_cons_of_mem m hm2))
        refine ⟨msg2, ?_⟩
        rw [← hrest] at *
        rw [tryAuthMethods_skip responses m rest (by rw [hr]; rfl) hne]
        exact hmsg
    · rcases hrest : rest with - | ⟨m2, rest2⟩
      · exact ⟨msg, by simp [tryAuthMethods, hr]⟩
      · have hne : rest.isEmpty = false := by rw [hrest]; rfl
        obtain ⟨msg2, hmsg⟩ := ih (by rw [hrest]; exact List.cons_ne_nil m2 rest2)
          (fun m2 hm2 => hall m2 (List.mem_cons_of_mem m hm2))
        refine ⟨msg2, ?_⟩
        rw [← hrest] at *
        rw [tryAuthMethods_skip responses m rest (by rw [hr]; rfl) hne]
        exact hmsg

/-- C8: `createCategory` tries Bearer, bare-token, `X-Auth-Token`, and
no-auth in order; it returns the JSON body of the first attempt whose
response is ok (so a create can succeed on the credential-less attempt),
and it throws only when all four attempts fail. -/
theorem claim8_createCategory_fallback (responses : AuthMethod → AttemptResult) :
    (∀ m b, responses m = .ok b →
      (∀ m2, methodIndex m2 < methodIndex m → attemptOk (responses m2) = false) →
      createCategory responses = some (.ok b)) ∧
    ((∀ m, attemptOk (responses m) = false) →
      ∃ msg, createCategory responses = some (.error msg)) := by
  constructor
  · intro m b hok hearlier
    unfold createCategory authMethods
    cases m with
    | bearer => exact tryAuthMethods_ok_cons responses _ _ b hok
    | tokenOnly =>
      rw [tryAuthMethods_skip responses .bearer [.tokenOnly, .xAuthToken, .noAuth]
        (hearlier .bearer (by decide)) rfl]
      exact tryAuthMethods_ok_cons responses _ _ b hok
    | xAuthToken =>
      rw [tryAuthMethods_skip responses .bearer [.tokenOnly, .xAuthToken, .noAuth]
        (hearlier .bearer (by decide)) rfl]
      rw [tryAuthMethods_skip responses .tokenOnly [.xAuthToken, .noAuth]
        (hearlier .tokenOnly (by decide)) rfl]
      exact tryAuthMethods_ok_cons responses _ _ b hok
    | noAuth =>
      rw [tryAuthMethods_skip responses .bearer [.tokenOnly, .xAuthToken, .noAuth]
        (hearlier .bearer (by decide)) rfl]
      rw [tryAuthMethods_skip responses .tokenOnly [.xAuthToken, .noAuth]
        (hearlier .tokenOnly (by decide)) rfl]
      rw [tryAuthMethods_skip responses .xAuthToken [.noAuth]
        (hearlier .xAuthToken (by decide)) rfl]
      exact tryAuthMethods_ok_cons responses _ _ b hok
  · intro hall
    exact tryAuthMethods_all_fail responses authMethods
      (by decide) (fun m _ => hall m)

/-- Witness for C8: with 401 on every credentialed attempt, the create
succeeds through the final attempt that carries no credentials. -/
theorem claim8_witness :
    c8Responses .noAuth = .ok "created-category" ∧
    createCategory c8Responses = some (.ok "created-category") := by
  have hearlier : ∀ m2, methodIndex m2 < methodIndex .noAuth →
      attemptOk (c8Responses m2) = false := by
    intro m2 hlt
    cases m2 with
    | bearer => rfl
    | tokenOnly => rfl
    | xAuthToken => rfl
    | noAuth => exact absurd hlt (by decide)
  exact ⟨rfl, (claim8_createCategory_fallback c8Responses).1 .noAuth
    "created-category" rfl hearlier⟩

/-! ## Claim C1 -/

/-- C1 counterexample: the Orders page's `fetchOrders` issues an API
request; on a 401 response it throws an error and leaves the auth state
untouched — the user is not set to `null`, the localStorage key is not
removed, and no redirect to `/login` happens — refuting the claim that
every request returning 401/403 forces logout. -/
theorem claim1_counterexample :
    fetchOrders c1State (.response 401 c1OrdersBody) =
      (.error "Authentication failed. Please log out and log in again.", c1State) ∧
    c1State.user ≠ none ∧ c1State.storage ≠ none ∧
    c1State.location ≠ some "/login" := by
  refine ⟨rfl, by decide, by decide, by decide⟩

/-- C1 (amended): requests issued through `useApi.apiCall` (with
`requiresAuth`) or through `makeAuthenticatedCall` (with the provider's
global logout installed) force logout on a 401/403 response: the user
becomes `null`, the localStorage `user` key is removed, and the browser
is redirected to `/login`.  Requests issued through page-local helpers
such as the Orders page's `fetchOrders` merely throw. -/
theorem claim1_auth_wrappers_force_logout (st : AuthState) (now s : Nat)
    (hnotexp : isUserTokenExpired st now = false) (hs : s = 401 ∨ s = 403) :
    apiCall st now true (.response s ()) = (none, logout st) ∧
    makeAuthenticatedCall st true (.response s ()) = (none, logout st) ∧
    (logout st).user = none ∧ (logout st).storage = none ∧
    (logout st).location = some "/login" := by
  have hchk := checkTokenExpiration_of_not_expired st now hnotexp
  rcases hs with rfl | rfl <;>
    simp [apiCall, makeAuthenticatedCall, hchk, hnotexp, logout]

/-- Witness for C1 at a valid session and a 401 response. -/
theorem claim1_witness :
    isUserTokenExpired c1State 100 = false ∧
    apiCall c1State 100 true (.response 401 ()) = (none, logout c1State) ∧
    makeAuthenticatedCall c1State true (.response 401 ()) = (none, logout c1State) :=
  ⟨rfl,
   (claim1_auth_wrappers_force_logout c1State 100 401 rfl (Or.inl rfl)).1,
   (claim1_auth_wrappers_force_logout c1State 100 401 rfl (Or.inl rfl)).2.1⟩

/-! ## Claim C5 -/

/-- C5: the seller analytics (and symmetrically the customer analytics)
group the fetched orders by seller id (customer id) with `"unknown"` for
a missing id, count exactly one per order in each group, sum each
group's `totalAmount` with `0` for a missing amount, and return at most
five groups sorted by descending count. -/
theorem claim5_seller_customer_analytics (orders : List OrderRec) :
    ((sellerAnalytics orders).length ≤ 5 ∧
     (sellerAnalytics orders).Pairwise aggCountGE ∧
     ∀ e ∈ sellerAnalytics orders,
       e.count = (orders.filter fun o => effSellerKey o = e.rowId).length ∧
       e.revenue =
         ((orders.filter fun o => effSellerKey o = e.rowId).map effAmount).sum) ∧
    ((customerAnalytics orders).length ≤ 5 ∧
     (customerAnalytics orders).Pairwise aggCountGE ∧
     ∀ e ∈ customerAnalytics orders,
       e.count = (orders.filter fun o => effCustomerKey o = e.rowId).length ∧
       e.revenue =
         ((orders.filter fun o => effCustomerKey o = e.rowId).map effAmount).sum) := by
  refine ⟨⟨?_, ?_, ?_⟩, ⟨?_, ?_, ?_⟩⟩
  · exact aggAnalytics_length effSellerKey effSellerName effAmount orders
  · exact aggAnalytics_sorted effSellerKey effSellerName effAmount orders
  · exact fun e he => aggAnalytics_mem effSellerKey effSellerName effAmount orders e he
  · exact aggAnalytics_length effCustomerKey effCustomerName effAmount orders
  · exact aggAnalytics_sorted effCustomerKey effCustomerName effAmount orders
  · exact fun e he => aggAnalytics_mem effCustomerKey effCustomerName effAmount orders e he

/-- Witness for C5 on a three-order list: the seller `"s1"` row counts
its two orders and sums their amounts (a missing amount counting 0). -/
theorem claim5_witness :
    AggRow.mk "s1" "Alice" 2 10 ∈ sellerAnalytics c5ExOrders ∧
    (AggRow.mk "s1" "Alice" 2 10).count =
      (c5ExOrders.filter fun o => effSellerKey o = "s1").length ∧
    (AggRow.mk "s1" "Alice" 2 10).revenue =
      ((c5ExOrders.filter fun o => effSellerKey o = "s1").map effAmount).sum := by
  have hmem : AggRow.mk "s1" "Alice" 2 10 ∈ sellerAnalytics c5ExOrders := by decide
  have h := ((claim5_seller_customer_analytics c5ExOrders).1.2.2 _ hmem)
  exact ⟨hmem, h.1, h.2⟩

/-! ## Claim C3 -/

/-- C3 counterexample: the login HTTP request succeeds (status 200, ok)
and yields a valid token, yet `login` resolves to `false`, because the
follow-up profile fetch answers 401 and the handler logs out — refuting
the claim that login returns `true` whenever the login request succeeds. -/
theorem claim3_counterexample :
    statusOk 200 = true ∧
    extractToken c3LoginBody = some (.wellFormed ⟨some 1000⟩) ∧
    isTokenExpired (.wellFormed ⟨some 1000⟩) 5 = false ∧
    (emailLogin emptyAuthState "admin@shop.com" (.response 200 c3LoginBody)
      (.response 401 emptyProfileBody) 5).1 = false := by
  refine ⟨rfl, rfl, rfl, rfl⟩

/-- C3 (amended): starting from an empty session store, `login` returns
`true` and stores the session object with the email and the extracted
bearer token when the login request succeeds and the profile fetch does
not answer 401/403; it returns `false` — leaving no session stored —
on a 401/403 login response, on any other non-ok login response, on an
already-expired received token, on a thrown network error, and also
when the profile fetch answers 401/403 (the just-stored session being
removed again). -/
theorem claim3_login_behaviour (email : String) (lr : HttpResult LoginBody)
    (pr : HttpResult ProfileBody) (now : Nat) :
    (lr = .netError →
      emailLogin emptyAuthState email lr pr now = (false, emptyAuthState)) ∧
    (∀ s b, lr = .response s b → s = 401 ∨ s = 403 →
      emailLogin emptyAuthState email lr pr now = (false, emptyAuthState)) ∧
    (∀ s b, lr = .response s b → ¬(s = 401 ∨ s = 403) → statusOk s = false →
      emailLogin emptyAuthState email lr pr now = (false, emptyAuthState)) ∧
    (∀ s b t, lr = .response s b → statusOk s = true →
      extractToken b = some t → isTokenExpired t now = true →
      emailLogin emptyAuthState email lr pr now = (false, emptyAuthState)) ∧
    (∀ s b t ps pb, lr = .response s b → statusOk s = true →
      extractToken b = some t → isTokenExpired t now = false →
      pr = .response ps pb → ps = 401 ∨ ps = 403 →
      (emailLogin emptyAuthState email lr pr now).1 = false ∧
      (emailLogin emptyAuthState email lr pr now).2.storage = none ∧
      (emailLogin emptyAuthState email lr pr now).2.user = none) ∧
    (∀ s b t, lr = .response s b → statusOk s = true →
      extractToken b = some t → isTokenExpired t now = false →
      (∀ ps pb, pr = .response ps pb → ¬(ps = 401 ∨ ps = 403)) →
      (emailLogin emptyAuthState email lr pr now).1 = true ∧
      ∃ u, (emailLogin emptyAuthState email lr pr now).2.storage = some u ∧
        u.email = email ∧ u.token = some t) := by
  refine ⟨?_, ?_, ?_, ?_, ?_, ?_⟩
  · rintro rfl
    rfl
  · rintro s b rfl (rfl | rfl) <;> rfl
  · rintro s b rfl hne hnok
    simp [emailLogin, hne, hnok]
  · rintro s b t rfl hok hext hexp
    simp [emailLogin, not_auth_error_of_ok hok, hok, hext, hexp]
  · rintro s b t ps pb rfl hok hext hexp rfl hps
    rcases hps with rfl | rfl <;>
      simp [emailLogin, loginProfileStep, not_auth_error_of_ok hok, hok,
        hext, hexp, logout]
  · rintro s b t rfl hok hext hexp hpr
    rcases pr with - | ⟨ps, pb⟩
    · refine ⟨?_, ⟨email, some t, none, none, none, none⟩, ?_, rfl, rfl⟩ <;>
        simp [emailLogin, loginProfileStep, not_auth_error_of_ok hok, hok,
          hext, hexp]
    · have hps := hpr ps pb rfl
      by_cases hpo : statusOk ps = true
      · refine ⟨?_, mergeProfile ⟨email, some t, none, none, none, none⟩ pb,
          ?_, rfl, rfl⟩ <;>
          simp [emailLogin, loginProfileStep, not_auth_error_of_ok hok, hok,
            hext, hexp, hps, hpo]
      · refine ⟨?_, ⟨email, some t, none, none, none, none⟩, ?_, rfl, rfl⟩ <;>
          simp [emailLogin, loginProfileStep, not_auth_error_of_ok hok, hok,
            hext, hexp, hps, hpo]

/-- Witness for C3: a successful login (valid token, profile fetch lost
to the network) returns `true` and stores the session; and at the same
inputs with a 401 login response, `false` with nothing stored. -/
theorem claim3_witness :
    (emailLogin emptyAuthState "admin@shop.com" (.response 200 c3LoginBody)
      .netError 5).1 = true ∧
    (∃ u, (emailLogin emptyAuthState "admin@shop.com"
        (.response 200 c3LoginBody) .netError 5).2.storage = some u ∧
      u.email = "admin@shop.com" ∧ u.token = some (.wellFormed ⟨some 1000⟩)) ∧
    emailLogin emptyAuthState "admin@shop.com" (.response 401 c3LoginBody)
      .netError 5 = (false, emptyAuthState) := by
  have h6 := (claim3_login_behaviour "admin@shop.com"
    (.response 200 c3LoginBody) .netError 5).2.2.2.2.2 200 c3LoginBody
    (.wellFormed ⟨some 1000⟩) rfl rfl rfl rfl
    (fun ps pb h => by simp at h)
  have h2 := (claim3_login_behaviour "admin@shop.com"
    (.response 401 c3LoginBody) .netError 5).2.1 401 c3LoginBody rfl (Or.inl rfl)
  exact ⟨h6.1, h6.2, h2⟩

/-! ## Claim C9 -/

/-- C9 counterexample: the login response is ok but carries no token
under any recognized key; with the profile fetch answering 401 (as a
request authorized with `Bearer null` will), `login` returns `false`
and removes the stored session — so it is not the case that a token-less
ok login always leaves a stored session and returns `true`. -/
theorem claim9_counterexample :
    statusOk 200 = true ∧
    extractToken c9LoginBody = none ∧
    (emailLogin emptyAuthState "admin@shop.com" (.response 200 c9LoginBody)
      (.response 401 emptyProfileBody) 5).1 = false ∧
    (emailLogin emptyAuthState "admin@shop.com" (.response 200 c9LoginBody)
      (.response 401 emptyProfileBody) 5).2.storage = none := by
  refine ⟨rfl, rfl, rfl, rfl⟩

/-- C9 (amended): when the login response is ok but carries no token
under any recognized key, and the profile fetch does not answer
401/403, `login` stores a session whose token is `null`, returns
`true`, and `isAuthenticated` becomes `true` for this token-less user. -/
theorem claim9_token_less_login (email : String) (s : Nat) (b : LoginBody)
    (pr : HttpResult ProfileBody) (now : Nat)
    (hok : statusOk s = true) (hext : extractToken b = none)
    (hpr : ∀ ps pb, pr = .response ps pb → ¬(ps = 401 ∨ ps = 403)) :
    (emailLogin emptyAuthState email (.response s b) pr now).1 = true ∧
    (∃ u, (emailLogin emptyAuthState email (.response s b) pr now).2.storage
        = some u ∧ u.email = email ∧ u.token = none) ∧
    isAuthenticated (emailLogin emptyAuthState email (.response s b) pr now).2
      = true := by
  rcases pr with - | ⟨ps, pb⟩
  · refine ⟨?_, ⟨⟨email, none, none, none, none, none⟩, ?_, rfl, rfl⟩, ?_⟩ <;>
      simp [emailLogin, loginProfileStep, not_auth_error_of_ok hok, hok,
        hext, isAuthenticated]
  · have hps := hpr ps pb rfl
    by_cases hpo : statusOk ps = true
    · refine ⟨?_, ⟨mergeProfile ⟨email, none, none, none, none, none⟩ pb,
        ?_, rfl, rfl⟩, ?_⟩ <;>
        simp [emailLogin, loginProfileStep, not_auth_error_of_ok hok, hok,
          hext, hps, hpo, isAuthenticated]
    · refine ⟨?_, ⟨⟨email, none, none, none, none, none⟩, ?_, rfl, rfl⟩, ?_⟩ <;>
        simp [emailLogin, loginProfileStep, not_auth_error_of_ok hok, hok,
          hext, hps, hpo, isAuthenticated]

/-- Witness for C9: ok login with no token and an ok profile fetch. -/
theorem claim9_witness :
    (emailLogin emptyAuthState "admin@shop.com" (.response 200 c9LoginBody)
      (.response 200 emptyProfileBody) 5).1 = true ∧
    isAuthenticated (emailLogin emptyAuthState "admin@shop.com"
      (.response 200 c9LoginBody) (.response 200 emptyProfileBody) 5).2 = true := by
  have h := claim9_token_less_login "admin@shop.com" 200 c9LoginBody
    (.response 200 emptyProfileBody) 5 rfl rfl
    (fun ps pb hresp => by
      cases hresp
      rintro (h | h) <;> simp at h)
  exact ⟨h.1, h.2.2⟩

/-! ## Claim C6: invariant of the product fold -/

theorem orderHasKey_iff (keyFn : PItem → Option String) (k : String) (o : POrder) :
    orderHasKey keyFn k o = true ↔ ∃ it ∈ o.items, keyFn it = some k := by
  unfold orderHasKey
  rw [List.any_eq_true]
  simp

theorem itemsKeyQty_nil (keyFn : PItem → Option String) (k : String) :
    itemsKeyQty keyFn k [] = 0 := rfl

theorem itemsKeyQty_cons_pos (keyFn : PItem → Option String) (k : String)
    (it : PItem) (rest : List PItem) (h : keyFn it = some k) :
    itemsKeyQty keyFn k (it :: rest) = effQty it + itemsKeyQty keyFn k rest := by
  unfold itemsKeyQty
  simp [List.filter_cons, h]

theorem itemsKeyQty_cons_neg (keyFn : PItem → Option String) (k : String)
    (it : PItem) (rest : List PItem) (h : ¬ keyFn it = some k) :
    itemsKeyQty keyFn k (it :: rest) = itemsKeyQty keyFn k rest := by
  unfold itemsKeyQty
  simp [List.filter_cons, h]

theorem keyOrderIds_append (keyFn : PItem → Option String) (k : String)
    (eOrders : List (Nat × POrder)) (p0 : Nat × POrder) :
    keyOrderIds keyFn k (eOrders ++ [p0]) =
      keyOrderIds keyFn k eOrders ++
        (if orderHasKey keyFn k p0.2 then [effOrderId p0.1 p0.2] else []) := by
  unfold keyOrderIds
  rw [List.filter_append, List.map_append]
  congr 1
  by_cases h : orderHasKey keyFn k p0.2 = true <;> simp [h]

theorem keyQuantity_append (keyFn : PItem → Option String) (k : String)
    (eOrders : List (Nat × POrder)) (p0 : Nat × POrder) :
    keyQuantity keyFn k (eOrders ++ [p0]) =
      keyQuantity keyFn k eOrders + orderKeyQty keyFn k p0.2 := by
  unfold keyQuantity
  rw [List.map_append, List.sum_append]
  simp

theorem keyOrderIds_nil_of_no_order (keyFn : PItem → Option String) (k : String)
    (eOrders : List (Nat × POrder))
    (h : ¬ ∃ p ∈ eOrders, orderHasKey keyFn k p.2 = true) :
    keyOrderIds keyFn k eOrders = [] := by
  unfold keyOrderIds
  have hfil : (eOrders.filter fun p => orderHasKey keyFn k p.2) = [] := by
    rw [List.filter_eq_nil_iff]
    intro p hp hcontra
    exact h ⟨p, hp, hcontra⟩
  rw [hfil]
  rfl

theorem keyQuantity_zero_of_no_order (keyFn : PItem → Option String) (k : String)
    (eOrders : List (Nat × POrder))
    (h : ¬ ∃ p ∈ eOrders, orderHasKey keyFn k p.2 = true) :
    keyQuantity keyFn k eOrders = 0 := by
  unfold keyQuantity
  apply List.sum_eq_zero
  intro x hx
  obtain ⟨p, hp, hpx⟩ := List.mem_map.mp hx
  have hnk : orderHasKey keyFn k p.2 = false := by
    rcases Bool.eq_false_or_eq_true (orderHasKey keyFn k p.2) with hb | hb
    · exact absurd ⟨p, hp, hb⟩ h
    · exact hb
  unfold orderHasKey at hnk
  rw [List.any_eq_false] at hnk
  have hfil : (p.2.items.filter fun it2 => keyFn it2 = some k) = [] := by
    rw [List.filter_eq_nil_iff]
    exact hnk
  rw [← hpx]
  unfold orderKeyQty
  rw [hfil]
  rfl

theorem map_fst_update {β : Type} (acc : List (String × β)) (k1 : String)
    (f : β → β) :
    ((acc.map fun p => if p.1 = k1 then (p.1, f p.2) else p).map Prod.fst) =
      acc.map Prod.fst := by
  rw [List.map_map]
  apply List.map_congr_left
  intro p _
  by_cases hp : p.1 = k1 <;> simp [hp]

theorem mem_map_update {β : Type} {acc : List (String × β)} {k1 k : String}
    {d1 : β} (f : β → β)
    (hd : (k, d1) ∈ acc.map fun p => if p.1 = k1 then (p.1, f p.2) else p) :
    ∃ d0, (k, d0) ∈ acc ∧
      ((k = k1 ∧ d1 = f d0) ∨ (¬ k = k1 ∧ d1 = d0)) := by
  obtain ⟨⟨p1, p2⟩, hp, hpe⟩ := List.mem_map.mp hd
  by_cases hpk : p1 = k1
  · rw [if_pos hpk] at hpe
    rw [Prod.mk.injEq] at hpe
    obtain ⟨h1, h2⟩ := hpe
    exact ⟨p2, h1 ▸ hp, Or.inl ⟨h1 ▸ hpk, h2.symm⟩⟩
  · rw [if_neg hpk] at hpe
    rw [Prod.mk.injEq] at hpe
    obtain ⟨h1, h2⟩ := hpe
    exact ⟨p2, h1 ▸ hp, Or.inr ⟨h1 ▸ hpk, h2.symm⟩⟩

theorem prodItemStep_keys (keyFn : PItem → Option String) (oid : String)
    (acc : List (String × ProdData)) (it : PItem) (k : String) :
    k ∈ (prodItemStepK keyFn oid acc it).map Prod.fst ↔
      k ∈ acc.map Prod.fst ∨ keyFn it = some k := by
  rcases hk : keyFn it with - | k1
  · simp [prodItemStepK, hk]
  · simp only [prodItemStepK, hk]
    by_cases hf : (acc.find? fun p => p.1 = k1).isSome = true
    · rw [if_pos hf]
      rw [map_fst_update acc k1 (fun d =>
        { d with orderIds := insertOnce oid d.orderIds,
                 totalRevenue := d.totalRevenue + effItemRevenue it,
                 totalQuantity := d.totalQuantity + effQty it })]
      have hkmem : k1 ∈ acc.map Prod.fst := (find_key_isSome_iff acc k1).mp hf
      constructor
      · intro hm
        exact Or.inl hm
      · rintro (hm | hm)
        · exact hm
        · rw [Option.some_inj] at hm
          rw [← hm]
          exact hkmem
    · rw [if_neg hf]
      rw [List.map_append]
      simp only [List.map_cons, List.map_nil, List.mem_append,
        List.mem_singleton, Option.some_inj]
      constructor
      · rintro (hm | hm)
        · exact Or.inl hm
        · exact Or.inr hm.symm
      · rintro (hm | hm)
        · exact Or.inl hm
        · exact Or.inr hm.symm

theorem prodItemStep_entries (keyFn : PItem → Option String) (oid : String)
    (acc : List (String × ProdData)) (it : PItem) (k : String) (d1 : ProdData)
    (hd : (k, d1) ∈ prodItemStepK keyFn oid acc it) :
    (∃ d0, (k, d0) ∈ acc ∧
      ((keyFn it = some k ∧ d1.orderIds = insertOnce oid d0.orderIds ∧
        d1.totalQuantity = d0.totalQuantity + effQty it) ∨
       (¬ keyFn it = some k ∧ d1 = d0))) ∨
    (k ∉ acc.map Prod.fst ∧ keyFn it = some k ∧
      d1.orderIds = [oid] ∧ d1.totalQuantity = effQty it) := by
  rcases hk : keyFn it with - | k1
  · simp only [prodItemStepK, hk] at hd
    exact Or.inl ⟨d1, hd, Or.inr ⟨by simp [hk], rfl⟩⟩
  · simp only [prodItemStepK, hk] at hd
    by_cases hf : (acc.find? fun p => p.1 = k1).isSome = true
    · rw [if_pos hf] at hd
      obtain ⟨d0, hd0, hcase⟩ := mem_map_update (fun d : ProdData =>
        { d with orderIds := insertOnce oid d.orderIds,
                 totalRevenue := d.totalRevenue + effItemRevenue it,
                 totalQuantity := d.totalQuantity + effQty it }) hd
      rcases hcase with ⟨hkk, hdv⟩ | ⟨hkk, hdv⟩
      · refine Or.inl ⟨d0, hd0, Or.inl ⟨?_, ?_, ?_⟩⟩
        · rw [hkk]
        · rw [hdv]
        · rw [hdv]
      · refine Or.inl ⟨d0, hd0, Or.inr ⟨?_, hdv⟩⟩
        rw [Option.some_inj]
        exact fun e => hkk e.symm
    · rw [if_neg hf] at hd
      have hknmem : k1 ∉ acc.map Prod.fst :=
        fun hm => hf ((find_key_isSome_iff acc k1).mpr hm)
      rcases List.mem_append.mp hd with hd | hd
      · refine Or.inl ⟨d1, hd, Or.inr ⟨?_, rfl⟩⟩
        rw [Option.some_inj]
        intro e
        rw [← e] at hd
        exact hknmem (List.mem_map.mpr ⟨(k1, d1), hd, rfl⟩)
      · rw [List.mem_singleton, Prod.mk.injEq] at hd
        obtain ⟨hkk, hdv⟩ := hd
        refine Or.inr ⟨?_, ?_, ?_, ?_⟩
        · rw [hkk]
          exact hknmem
        · rw [hkk]
        · rw [hdv]
        · rw [hdv]

theorem prodItems_foldl_char (keyFn : PItem → Option String) (oid : String) :
    ∀ (its : List PItem) (acc : List (String × ProdData)),
      (∀ k, k ∈ (its.foldl (prodItemStepK keyFn oid) acc).map Prod.fst ↔
        k ∈ acc.map Prod.fst ∨ ∃ it ∈ its, keyFn it = some k) ∧
      (∀ k d1, (k, d1) ∈ its.foldl (prodItemStepK keyFn oid) acc →
        (∃ d0, (k, d0) ∈ acc ∧
          d1.orderIds = (if its.any fun it => keyFn it = some k then
            insertOnce oid d0.orderIds else d0.orderIds) ∧
          d1.totalQuantity = d0.totalQuantity + itemsKeyQty keyFn k its) ∨
        (k ∉ acc.map Prod.fst ∧ (its.any fun it => keyFn it = some k) = true ∧
          d1.orderIds = [oid] ∧ d1.totalQuantity = itemsKeyQty keyFn k its)) := by
  intro its
  induction its with
  | nil =>
    intro acc
    constructor
    · intro k
      simp
    · intro k d1 hd
      refine Or.inl ⟨d1, hd, ?_, ?_⟩
      · simp
      · simp [itemsKeyQty_nil]
  | cons it rest ih =>
    intro acc
    constructor
    · intro k
      rw [List.foldl_cons]
      rw [(ih (prodItemStepK keyFn oid acc it)).1 k]
      rw [prodItemStep_keys keyFn oid acc it k]
      constructor
      · rintro ((hk | hk) | ⟨it2, hit2, hk⟩)
        · exact Or.inl hk
        · exact Or.inr ⟨it, List.mem_cons_self it rest, hk⟩
        · exact Or.inr ⟨it2, List.mem_cons_of_mem it hit2, hk⟩
      · rintro (hk | ⟨it2, hit2, hk⟩)
        · exact Or.inl (Or.inl hk)
        · rcases List.mem_cons.mp hit2 with rfl | hit2
          · exact Or.inl (Or.inr hk)
          · exact Or.inr ⟨it2, hit2, hk⟩
    · intro k d1 hd
      rw [List.foldl_cons] at hd
      rcases (ih (prodItemStepK keyFn oid acc it)).2 k d1 hd with
        ⟨dm, hdm, hids, hqty⟩ | ⟨hnk, hany, hids, hqty⟩
      · rcases prodItemStep_entries keyFn oid acc it k dm hdm with
          ⟨d0, hd0, ⟨hkeq, hmids, hmqty⟩ | ⟨hkne, hmeq⟩⟩ |
          ⟨hnk0, hkeq, hm0ids, hm0qty⟩
        · -- the head item carries the key and the key was already present
          have hany2 : ((it :: rest).any fun it2 => keyFn it2 = some k) = true := by
            simp [List.any_cons, hkeq]
          refine Or.inl ⟨d0, hd0, ?_, ?_⟩
          · rw [hany2, if_pos rfl]
            by_cases hra : (rest.any fun it2 => keyFn it2 = some k) = true
            · rw [hids, if_pos hra, hmids, insertOnce_idem]
            · rw [hids, if_neg hra, hmids]
          · rw [hqty, hmqty, itemsKeyQty_cons_pos keyFn k it rest hkeq]
            omega
        · -- the head item does not carry the key
          have hanyeq : ((it :: rest).any fun it2 => keyFn it2 = some k) =
              (rest.any fun it2 => keyFn it2 = some k) := by
            simp [List.any_cons, hkne]
          refine Or.inl ⟨d0, hd0, ?_, ?_⟩
          · rw [hanyeq, hids, hmeq]
          · rw [hqty, hmeq, itemsKeyQty_cons_neg keyFn k it rest hkne]
        · -- the head item created the entry
          have hany2 : ((it :: rest).any fun it2 => keyFn it2 = some k) = true := by
            simp [List.any_cons, hkeq]
          refine Or.inr ⟨hnk0, hany2, ?_, ?_⟩
          · by_cases hra : (rest.any fun it2 => keyFn it2 = some k) = true
            · rw [hids, if_pos hra, hm0ids,
                insertOnce_of_mem (List.mem_singleton_self oid)]
            · rw [hids, if_neg hra, hm0ids]
          · rw [hqty, hm0qty, itemsKeyQty_cons_pos keyFn k it rest hkeq]
      · -- the key entered only during the rest of the items
        have hsplit := (prodItemStep_keys keyFn oid acc it k)
        have hnacc : k ∉ acc.map Prod.fst := fun hm => hnk (hsplit.mpr (Or.inl hm))
        have hkne : ¬ keyFn it = some k := fun he => hnk (hsplit.mpr (Or.inr he))
        have hany2 : ((it :: rest).any fun it2 => keyFn it2 = some k) = true := by
          simp only [List.any_cons, Bool.or_eq_true]
          exact Or.inr hany
        refine Or.inr ⟨hnacc, hany2, hids, ?_⟩
        rw [hqty, itemsKeyQty_cons_neg keyFn k it rest hkne]

theorem prodOrderStep_invariant (keyFn : PItem → Option String)
    (processed : List (Nat × POrder)) (acc : List (String × ProdData))
    (p0 : Nat × POrder) (h : prodInvariant keyFn processed acc) :
    prodInvariant keyFn (processed ++ [p0]) (prodOrderStepK keyFn acc p0) := by
  obtain ⟨hkeys, hent⟩ := h
  unfold prodOrderStepK
  constructor
  · intro k
    rw [(prodItems_foldl_char keyFn (effOrderId p0.1 p0.2) p0.2.items acc).1 k]
    rw [hkeys k]
    constructor
    · rintro (⟨p, hp, hpk⟩ | hit)
      · exact ⟨p, List.mem_append_left _ hp, hpk⟩
      · refine ⟨p0, List.mem_append_right _ (by simp), ?_⟩
        exact (orderHasKey_iff keyFn k p0.2).mpr hit
    · rintro ⟨p, hp, hpk⟩
      rcases List.mem_append.mp hp with hp | hp
      · exact Or.inl ⟨p, hp, hpk⟩
      · rw [List.mem_singleton] at hp
        subst hp
        exact Or.inr ((orderHasKey_iff keyFn k p.2).mp hpk)
  · intro k d1 hd
    have hconn : (p0.2.items.any fun it => keyFn it = some k) =
        orderHasKey keyFn k p0.2 := rfl
    rcases (prodItems_foldl_char keyFn (effOrderId p0.1 p0.2) p0.2.items acc).2
        k d1 hd with ⟨d0, hd0, hids, hqty⟩ | ⟨hnk, hany, hids, hqty⟩
    · obtain ⟨hbids, hbqty⟩ := hent k d0 hd0
      constructor
      · rw [hids, keyOrderIds_append keyFn k processed p0, hbids, hconn]
        by_cases ho : orderHasKey keyFn k p0.2 = true
        · rw [if_pos ho, if_pos ho, distinctList_append_singleton]
        · rw [if_neg ho, if_neg ho, List.append_nil]
      · rw [hqty, keyQuantity_append keyFn k processed p0, hbqty]
        rfl
    · have hnk2 : ¬ ∃ p ∈ processed, orderHasKey keyFn k p.2 = true :=
        fun he => hnk ((hkeys k).mpr he)
      have hids2 := keyOrderIds_nil_of_no_order keyFn k processed hnk2
      have hqty2 := keyQuantity_zero_of_no_order keyFn k processed hnk2
      have hok : orderHasKey keyFn k p0.2 = true := by
        rw [← hconn]
        exact hany
      constructor
      · rw [hids, keyOrderIds_append keyFn k processed p0, hids2, if_pos hok]
        rfl
      · rw [hqty, keyQuantity_append keyFn k processed p0, hqty2,
          Nat.zero_add]
        rfl

theorem productCountsK_invariant_aux (keyFn : PItem → Option String) :
    ∀ (rest processed : List (Nat × POrder)) (acc : List (String × ProdData)),
      prodInvariant keyFn processed acc →
      prodInvariant keyFn (processed ++ rest)
        (rest.foldl (prodOrderStepK keyFn) acc) := by
  intro rest
  induction rest with
  | nil =>
    intro processed acc h
    simpa using h
  | cons p0 rs ih =>
    intro processed acc h
    have h1 := prodOrderStep_invariant keyFn processed acc p0 h
    have h2 := ih (processed ++ [p0]) _ h1
    simpa [List.append_assoc] using h2

theorem productCountsK_invariant (keyFn : PItem → Option String)
    (orders : List POrder) :
    prodInvariant keyFn orders.enum (productCountsK keyFn orders) := by
  have h0 : prodInvariant keyFn ([] : List (Nat × POrder)) [] := by
    constructor
    · intro k
      simp
    · intro k d hd
      simp at hd
  have := productCountsK_invariant_aux keyFn orders.enum [] [] h0
  simpa [productCountsK] using this

/-- Characterization of each ranked product row, generic in the
item-key function: the order count is the number of distinct effective
order ids among the orders containing the key, and the quantity is the
key's quantity sum. -/
theorem prodRanking_mem (keyFn : PItem → Option String) (orders : List POrder)
    (e : ProdRow)
    (he : e ∈ (((productCountsK keyFn orders).map prodEntryRow).insertionSort
      prodCountGE).take 5) :
    e.orderCount = (keyOrderIds keyFn e.rowPid orders.enum).dedup.length ∧
    e.totalQuantity = keyQuantity keyFn e.rowPid orders.enum := by
  have h1 : e ∈ ((productCountsK keyFn orders).map prodEntryRow).insertionSort
      prodCountGE := List.mem_of_mem_take he
  have h2 : e ∈ (productCountsK keyFn orders).map prodEntryRow :=
    (List.mem_insertionSort prodCountGE).mp h1
  obtain ⟨⟨k, d⟩, hp, hpe⟩ := List.mem_map.mp h2
  obtain ⟨-, hent⟩ := productCountsK_invariant keyFn orders
  obtain ⟨hbids, hbqty⟩ := hent k d hp
  rw [← hpe]
  constructor
  · show d.orderIds.length = (keyOrderIds keyFn k orders.enum).dedup.length
    rw [hbids, length_distinctList]
  · show d.totalQuantity = keyQuantity keyFn k orders.enum
    exact hbqty

/-! ## Claim C6 -/

/-- C6 counterexample: the source keys an item by
`item.productId || item.ProductId || item.product_id || item.id` — the
order item's own `id` is used before falling back to the product name.
Two items with the same name `"Foo"` and no product id, one of which has
an item id, therefore land in different groups: the code reports two
products with one distinct order each, while the claim's keying (by
product name when productId is missing) would report one product
ordered in two distinct orders. -/
theorem claim6_counterexample :
    itemPid c6ItemA = some "i1" ∧
    itemPid c6ItemB = none ∧
    itemName c6ItemA = "Foo" ∧
    itemName c6ItemB = "Foo" ∧
    (mostOrderedProducts c6ExOrders).map (fun e => e.orderCount) = [1, 1] ∧
    (mostOrderedProductsClaim c6ExOrders).map (fun e => e.orderCount) = [2] := by
  refine ⟨rfl, rfl, rfl, rfl, rfl, rfl⟩

/-- C6 (amended): the ranking keys each item by the first truthy of
`productId`, `ProductId`, `product_id`, and the item's own `id`, falling
back to the product name only when all four are missing (and skipping
the item when the name is also unknown); it counts for each key the
number of distinct effective order ids whose items carry it (one order
counting once however many of its items carry the key), sums quantities
with a missing quantity counting 1, and returns at most five rows
sorted by that distinct-order count in descending order. -/
theorem claim6_most_ordered_products (orders : List POrder) :
    (mostOrderedProducts orders).length ≤ 5 ∧
    (mostOrderedProducts orders).Pairwise prodCountGE ∧
    ∀ e ∈ mostOrderedProducts orders,
      e.orderCount = (keyOrderIds itemKey e.rowPid orders.enum).dedup.length ∧
      e.totalQuantity = keyQuantity itemKey e.rowPid orders.enum := by
  refine ⟨?_, ?_, ?_⟩
  · unfold mostOrderedProducts
    exact List.length_take_le 5 _
  · have hs : ((((productCountsK itemKey orders).map prodEntryRow).insertionSort
        prodCountGE)).Sorted prodCountGE := List.sorted_insertionSort prodCountGE _
    exact hs.sublist (List.take_sublist 5 _)
  · intro e he
    exact prodRanking_mem itemKey orders e he

/-- Witness for C6: on the two-order example, the row keyed by the item
id `"i1"` counts exactly one distinct order and quantity 1. -/
theorem claim6_witness :
    ProdRow.mk "i1" "Foo" 1 1 0 0 none ∈ mostOrderedProducts c6ExOrders ∧
    (ProdRow.mk "i1" "Foo" 1 1 0 0 none).orderCount =
      (keyOrderIds itemKey "i1" c6ExOrders.enum).dedup.length ∧
    (ProdRow.mk "i1" "Foo" 1 1 0 0 none).totalQuantity =
      keyQuantity itemKey "i1" c6ExOrders.enum := by
  have hmem : ProdRow.mk "i1" "Foo" 1 1 0 0 none ∈
      mostOrderedProducts c6ExOrders := by decide
  have h := (claim6_most_ordered_products c6ExOrders).2.2 _ hmem
  exact ⟨hmem, h.1, h.2⟩
